import Mathlib

/-!
Shallow embedding of the FeyScan token-deployment monitor.

Addresses, transaction hashes and event topics are modelled as natural
numbers (the JavaScript code only compares their lower-cased hex strings
for equality, so a canonical numeric form is faithful).  JavaScript
numbers used in scores, volumes and priorities are modelled as rationals.
Network reads (RPC log fetches, trace calls, price lookups) are passed in
explicitly as values or oracle functions.
-/

namespace FeyScan

/-- Zero address `0x0000…0000`. -/
def zeroAddress : Nat := 0

/-- The factory contract address (`CONTRACT_ADDRESS` in monitor.js). -/
def CONTRACT_ADDRESS : Nat := 0x8EEF0dC80ADf57908bB1be0236c2a72a7e379C2d

/-- `keccak("Transfer(address,address,uint256)")`, the ERC-20 transfer topic. -/
def transferEventSignature : Nat :=
  0xddf252ad1be2c89b69c2b068fc378daa952ba7f163c4a11628f55a4df523b3ef

/-- Known standard token addresses excluded from deployment detection
(`KNOWN_TOKENS` in monitor.js: WETH, USDC, DAI, USDbC on Base). -/
def KNOWN_TOKENS : List Nat :=
  [ 0x4200000000000000000000000000000000000006
  , 0x833589fcd6edb6e08f4c7c32d4f71b54bda02913
  , 0x50c5725949a6f0c72e6c4a641f24049a917e0cbd
  , 0xd9aaec86b65d86f6a7b5b1b0c42ffa531710b6ca ]

/-- Known token display names excluded from refresh
(`KNOWN_TOKEN_NAMES` in monitor.js; membership is tested against the
upper-cased candidate name). -/
def KNOWN_TOKEN_NAMES : List String :=
  ["Wrapped Ether", "WETH", "FEY"]

/-- Free tier per-call block-range limit (`FREE_TIER_MAX_BLOCK_RANGE`). -/
def FREE_TIER_MAX_BLOCK_RANGE : Nat := 10

/-- `MAX_ENTRIES` cap of the JSON store (storage.js). -/
def MAX_ENTRIES : Nat := 1000

/-- An address extracted from a 32-byte topic word:
`'0x' + topic.slice(-40)` keeps the low 160 bits. -/
def addrOfTopic (t : Nat) : Nat := t % 2 ^ 160

/-- One `{count, timestamp}` entry of `holderCountHistory`. -/
structure HistoryEntry where
  count : Nat
  timestamp : Nat
  deriving DecidableEq, Repr

/-- One `{volume, timestamp}` entry of `volumeHistory`. -/
structure VolumeEntry where
  volume : ℚ
  timestamp : Nat
  deriving DecidableEq, Repr

/-- A stored deployment record (the union of fields written by
`extractAndStoreDeployment` and the later update call sites).
`tokenAddress = none` models the `'N/A'` placeholder; `lastHolderCheck =
none` models a field never written.  Fields that never influence the
verified claims (links, formatted strings, Farcaster payload) are kept as
plain data where they are written, or omitted when pure decoration. -/
structure Deployment where
  txHash : Nat
  tokenAddress : Option Nat
  tokenName : String
  blockNumber : Nat
  timestamp : Nat
  fromAddr : Nat
  devBuyAmount : ℚ
  devSold : Bool
  devSoldAmount : ℚ
  holderCount : Nat
  holderCountHistory : List HistoryEntry
  lastHolderCheck : Option Nat
  volume1h : ℚ
  volume6h : ℚ
  volume24h : ℚ
  volume7d : ℚ
  volumeHistory : List VolumeEntry
  marketCap : ℚ
  devTransferCount : Nat
  devTransferredOut : ℚ
  devTransferredIn : ℚ
  devNetTransfer : ℚ
  lastTransferCheck : Option Nat
  isPruned : Bool
  deriving DecidableEq, Repr

/-- `addDeployment` of storage.js: reject a duplicate `txHash`, otherwise
`unshift` the record (most recent first) and `splice` the list down to
`MAX_ENTRIES`. -/
def addDeployment (store : List Deployment) (d : Deployment) : List Deployment :=
  if store.any (fun e => e.txHash = d.txHash) then store
  else (d :: store).take MAX_ENTRIES

/-- A partial-fields update as accepted by `updateDeployment`
(storage.js spreads the update over the record; supabase-storage.js maps
each present field to its column, including `token_address`).  A `none`
field is absent from the update object. -/
structure UpdateFields where
  tokenAddress : Option (Option Nat) := none
  tokenName : Option String := none
  devSold : Option Bool := none
  devSoldAmount : Option ℚ := none
  holderCount : Option Nat := none
  holderCountHistory : Option (List HistoryEntry) := none
  lastHolderCheck : Option Nat := none
  volume1h : Option ℚ := none
  volume6h : Option ℚ := none
  volume24h : Option ℚ := none
  volume7d : Option ℚ := none
  volumeHistory : Option (List VolumeEntry) := none
  marketCap : Option ℚ := none
  devTransferCount : Option Nat := none
  devTransferredOut : Option ℚ := none
  devTransferredIn : Option ℚ := none
  devNetTransfer : Option ℚ := none
  lastTransferCheck : Option Nat := none
  isPruned : Option Bool := none
  deriving DecidableEq

/-- `{ ...deployments[index], ...updates }`: present update fields win,
absent ones keep the stored value. -/
def applyUpdate (d : Deployment) (u : UpdateFields) : Deployment :=
  { d with
    tokenAddress := u.tokenAddress.getD d.tokenAddress
    tokenName := u.tokenName.getD d.tokenName
    devSold := u.devSold.getD d.devSold
    devSoldAmount := u.devSoldAmount.getD d.devSoldAmount
    holderCount := u.holderCount.getD d.holderCount
    holderCountHistory := u.holderCountHistory.getD d.holderCountHistory
    lastHolderCheck := (u.lastHolderCheck.map some).getD d.lastHolderCheck
    volume1h := u.volume1h.getD d.volume1h
    volume6h := u.volume6h.getD d.volume6h
    volume24h := u.volume24h.getD d.volume24h
    volume7d := u.volume7d.getD d.volume7d
    volumeHistory := u.volumeHistory.getD d.volumeHistory
    marketCap := u.marketCap.getD d.marketCap
    devTransferCount := u.devTransferCount.getD d.devTransferCount
    devTransferredOut := u.devTransferredOut.getD d.devTransferredOut
    devTransferredIn := u.devTransferredIn.getD d.devTransferredIn
    devNetTransfer := u.devNetTransfer.getD d.devNetTransfer
    lastTransferCheck := (u.lastTransferCheck.map some).getD d.lastTransferCheck
    isPruned := u.isPruned.getD d.isPruned }

/-- `updateDeployment` of storage.js: `findIndex` by `txHash` and replace
that one record; a miss leaves the store unchanged. -/
def updateDeployment : List Deployment → Nat → UpdateFields → List Deployment
  | [], _, _ => []
  | d :: rest, h, u =>
    if d.txHash = h then applyUpdate d u :: rest
    else d :: updateDeployment rest h u

/-- A ledger log entry as consumed by the monitor: emitting address,
indexed topics, containing block. -/
structure Log where
  address : Nat
  topics : List Nat
  blockNumber : Nat
  deriving DecidableEq, Repr

/-- The transaction fields `extractAndStoreDeployment` reads. -/
structure TxData where
  hash : Nat
  fromAddr : Nat
  value : ℚ
  deriving DecidableEq, Repr

/-- The receipt fields `extractAndStoreDeployment` reads. -/
structure Receipt where
  blockNumber : Nat
  logs : List Log
  contractAddress : Option Nat
  deriving DecidableEq, Repr

/-- First resolution pass over the receipt logs (monitor.js lines in
`extractAndStoreDeployment`): skip `KNOWN_TOKENS`; a Transfer event
(≥ 3 topics, transfer signature, non-factory emitter) wins immediately;
otherwise remember the first non-factory, non-known log address and keep
scanning. -/
def findTokenAddressFromLogs (acc : Option Nat) : List Log → Option Nat
  | [] => acc
  | lg :: rest =>
    if KNOWN_TOKENS.contains lg.address then findTokenAddressFromLogs acc rest
    else if lg.topics.length ≥ 3 ∧ lg.topics.head? = some transferEventSignature ∧
        lg.address ≠ CONTRACT_ADDRESS then
      some lg.address
    else if lg.address ≠ CONTRACT_ADDRESS ∧ acc = none then
      findTokenAddressFromLogs (some lg.address) rest
    else
      findTokenAddressFromLogs acc rest

/-- Last-resort resolution: the first log with more than one topic yields
an address from `topics[1]` (a sliced 40-hex-char string is always a valid
address). -/
def topicAddressFallback : List Log → Option Nat
  | [] => none
  | lg :: rest =>
    match lg.topics.get? 1 with
    | some t => some (addrOfTopic t)
    | none => topicAddressFallback rest

/-- Token-address resolution order of `extractAndStoreDeployment`:
the decoded `TokenCreated` address if supplied, else the receipt-log scan,
else `receipt.contractAddress`, else the `topics[1]` fallback. -/
def resolveTokenAddress (receipt : Receipt) (known : Option Nat) : Option Nat :=
  match known with
  | some a => some a
  | none =>
    match findTokenAddressFromLogs none receipt.logs with
    | some a => some a
    | none =>
      match receipt.contractAddress with
      | some c => some c
      | none => topicAddressFallback receipt.logs

/-- The two participant addresses of a Transfer log (`topics[1]`,
`topics[2]`), empty for any other log shape. -/
def transferParticipants (lg : Log) : List Nat :=
  match lg.topics with
  | t0 :: t1 :: t2 :: _ =>
    if t0 = transferEventSignature then [addrOfTopic t1, addrOfTopic t2] else []
  | _ => []

/-- Initial holder snapshot: unique non-zero transfer participants among
the creation receipt's own logs emitted by the token. -/
def initialHolderCount (tokenAddress : Nat) (logs : List Log) : Nat :=
  ((((logs.filter (fun lg => lg.address = tokenAddress)).flatMap transferParticipants).filter
    (fun a => a ≠ zeroAddress)).dedup).length

/-- The final duplicate check of `extractAndStoreDeployment`: a resolved
(non-`'N/A'`) token address that some stored deployment already carries. -/
def tokenAddressTaken (store : List Deployment) : Option Nat → Bool
  | some a => store.any (fun d => d.tokenAddress = some a)
  | none => false

/-- `extractAndStoreDeployment`: skip when the `txHash` is already stored;
resolve the token address and the initial holder snapshot; skip when the
resolved address already belongs to a stored deployment; otherwise build
the record and insert it through `addDeployment`.  `blockTimestamp`,
`tokenName` and `marketCap` stand for the external lookups (block fetch,
ERC-20 `name()`, DEXScreener), which only fill record fields. -/
def extractAndStoreDeployment (store : List Deployment) (tx : TxData) (receipt : Receipt)
    (knownTokenAddress : Option Nat) (blockTimestamp : Nat) (tokenName : String)
    (marketCap : ℚ) : List Deployment :=
  if store.any (fun d => d.txHash = tx.hash) then store
  else
    let tokenAddress := resolveTokenAddress receipt knownTokenAddress
    let holderCount :=
      match tokenAddress with
      | some a => initialHolderCount a receipt.logs
      | none => 0
    if tokenAddressTaken store tokenAddress then store
    else
      addDeployment store
        { txHash := tx.hash
          tokenAddress := tokenAddress
          tokenName := tokenName
          blockNumber := receipt.blockNumber
          timestamp := blockTimestamp
          fromAddr := tx.fromAddr
          devBuyAmount := tx.value
          devSold := false
          devSoldAmount := 0
          holderCount := holderCount
          holderCountHistory := [{ count := holderCount, timestamp := blockTimestamp }]
          lastHolderCheck := none
          volume1h := 0
          volume6h := 0
          volume24h := 0
          volume7d := 0
          volumeHistory := []
          marketCap := marketCap
          devTransferCount := 0
          devTransferredOut := 0
          devTransferredIn := 0
          devNetTransfer := 0
          lastTransferCheck := none
          isPruned := false }

/-- The update payloads the monitor ever passes to `updateDeployment`,
one constructor per call site in monitor.js: the proactive prune mark,
the volume refresh, the holder refresh (optionally pruning and renaming),
the bare `lastHolderCheck` touch, the dev-sell mark and the dev-transfer
statistics. -/
inductive MonitorUpdateCall
  | prune
  | volumeRefresh (v1 v6 v24 v7 : ℚ) (vh : List VolumeEntry) (mc : ℚ)
  | holderRefresh (hc : Nat) (hh : List HistoryEntry) (lhc : Nat) (mc : ℚ)
      (pruned : Bool) (newName : Option String)
  | touchLastCheck (lhc : Nat)
  | devSoldMark (amt : ℚ)
  | devTransferStats (c : Nat) (outAmt inAmt net : ℚ) (lt : Nat)
  deriving DecidableEq

/-- The exact field set each monitor call site sends. -/
def MonitorUpdateCall.fields : MonitorUpdateCall → UpdateFields
  | .prune => { isPruned := some true }
  | .volumeRefresh v1 v6 v24 v7 vh mc =>
      { volume1h := some v1, volume6h := some v6, volume24h := some v24,
        volume7d := some v7, volumeHistory := some vh, marketCap := some mc }
  | .holderRefresh hc hh lhc mc pruned newName =>
      { tokenName := newName, holderCount := some hc, holderCountHistory := some hh,
        lastHolderCheck := some lhc, marketCap := some mc,
        isPruned := if pruned then some true else none }
  | .touchLastCheck lhc => { lastHolderCheck := some lhc }
  | .devSoldMark amt => { devSold := some true, devSoldAmount := some amt }
  | .devTransferStats c outAmt inAmt net lt =>
      { devTransferCount := some c, devTransferredOut := some outAmt,
        devTransferredIn := some inAmt, devNetTransfer := some net,
        lastTransferCheck := some lt }

/-- One store-mutating step of the monitor: a deployment extraction or one
of the update calls. -/
inductive MonitorOp
  | extract (tx : TxData) (receipt : Receipt) (known : Option Nat)
      (blockTimestamp : Nat) (tokenName : String) (marketCap : ℚ)
  | update (txHash : Nat) (call : MonitorUpdateCall)
  deriving DecidableEq

/-- Interpreter of one monitor operation over the store. -/
def applyMonitorOp (store : List Deployment) : MonitorOp → List Deployment
  | .extract tx receipt known ts name mc =>
      extractAndStoreDeployment store tx receipt known ts name mc
  | .update h c => updateDeployment store h c.fields

/-- A deployment with the given `txHash`, used as a concrete record in
evaluations; every metric field is at its defaulted value. -/
def mkDep (h : Nat) : Deployment :=
  { txHash := h
    tokenAddress := some h
    tokenName := ""
    blockNumber := 0
    timestamp := 0
    fromAddr := 0
    devBuyAmount := 0
    devSold := false
    devSoldAmount := 0
    holderCount := 0
    holderCountHistory := []
    lastHolderCheck := none
    volume1h := 0
    volume6h := 0
    volume24h := 0
    volume7d := 0
    volumeHistory := []
    marketCap := 0
    devTransferCount := 0
    devTransferredOut := 0
    devTransferredIn := 0
    devNetTransfer := 0
    lastTransferCheck := none
    isPruned := false }

/-- A JSON store holding exactly `MAX_ENTRIES` records. -/
def fullStore : List Deployment := (List.range MAX_ENTRIES).map mkDep

theorem applyUpdate_txHash (d : Deployment) (u : UpdateFields) :
    (applyUpdate d u).txHash = d.txHash := rfl

theorem applyUpdate_tokenAddress {u : UpdateFields} (h : u.tokenAddress = none)
    (d : Deployment) : (applyUpdate d u).tokenAddress = d.tokenAddress := by
  simp [applyUpdate, h]

theorem MonitorUpdateCall.fields_tokenAddress (c : MonitorUpdateCall) :
    c.fields.tokenAddress = none := by
  cases c <;> rfl

theorem updateDeployment_map_txHash :
    ∀ (s : List Deployment) (h : Nat) (u : UpdateFields),
      (updateDeployment s h u).map Deployment.txHash = s.map Deployment.txHash
  | [], _, _ => rfl
  | d :: rest, h, u => by
    by_cases hd : d.txHash = h <;>
      simp [updateDeployment, hd, applyUpdate_txHash, updateDeployment_map_txHash rest h u]

theorem mem_updateDeployment :
    ∀ {s : List Deployment} {h : Nat} {u : UpdateFields} {d' : Deployment},
      d' ∈ updateDeployment s h u →
      d' ∈ s ∨ ∃ d ∈ s, d.txHash = h ∧ d' = applyUpdate d u := by
  intro s
  induction s with
  | nil => intro h u d' hm; simp [updateDeployment] at hm
  | cons e rest ih =>
    intro h u d' hm
    rw [updateDeployment] at hm
    by_cases he : e.txHash = h
    · rw [if_pos he] at hm
      rcases List.mem_cons.mp hm with h1 | h2
      · exact Or.inr ⟨e, List.mem_cons_self e rest, he, h1⟩
      · exact Or.inl (List.mem_cons_of_mem e h2)
    · rw [if_neg he] at hm
      rcases List.mem_cons.mp hm with h1 | h2
      · exact Or.inl (h1 ▸ List.mem_cons_self e rest)
      · rcases ih h2 with h3 | ⟨d, hd, hdh, hde⟩
        · exact Or.inl (List.mem_cons_of_mem e h3)
        · exact Or.inr ⟨d, List.mem_cons_of_mem e hd, hdh, hde⟩

theorem mem_addDeployment {s : List Deployment} {nd d' : Deployment}
    (h : d' ∈ addDeployment s nd) : d' = nd ∨ d' ∈ s := by
  rw [addDeployment] at h
  split at h
  · exact Or.inr h
  · rcases List.mem_cons.mp (List.mem_of_mem_take h) with h1 | h2
    · exact Or.inl h1
    · exact Or.inr h2

theorem addDeployment_nodup {s : List Deployment} {nd : Deployment}
    (hnd : (s.map Deployment.txHash).Nodup) :
    ((addDeployment s nd).map Deployment.txHash).Nodup := by
  rw [addDeployment]
  split
  · exact hnd
  · rename_i hany
    have hnotmem : nd.txHash ∉ s.map Deployment.txHash := by
      intro hmem
      rcases List.mem_map.mp hmem with ⟨e, he, heq⟩
      exact hany (List.any_eq_true.mpr ⟨e, he, decide_eq_true heq⟩)
    have : ((nd :: s).map Deployment.txHash).Nodup := List.nodup_cons.mpr ⟨hnotmem, hnd⟩
    exact ((List.take_sublist _ _).map Deployment.txHash).nodup this

theorem extractAndStoreDeployment_cases (store : List Deployment) (tx : TxData)
    (receipt : Receipt) (known : Option Nat) (ts : Nat) (name : String) (mc : ℚ) :
    extractAndStoreDeployment store tx receipt known ts name mc = store ∨
    (¬ store.any (fun d => d.txHash = tx.hash) = true ∧
      ∃ nd : Deployment, nd.txHash = tx.hash ∧
        extractAndStoreDeployment store tx receipt known ts name mc = addDeployment store nd) := by
  rw [extractAndStoreDeployment]
  split
  · exact Or.inl rfl
  · rename_i hany
    dsimp only
    split
    · exact Or.inl rfl
    · exact Or.inr ⟨hany, _, rfl, rfl⟩

theorem applyMonitorOp_nodup {s : List Deployment}
    (hnd : (s.map Deployment.txHash).Nodup) (op : MonitorOp) :
    ((applyMonitorOp s op).map Deployment.txHash).Nodup := by
  cases op with
  | extract tx receipt known ts name mc =>
    rcases extractAndStoreDeployment_cases s tx receipt known ts name mc with h | ⟨-, nd, -, h⟩
    · rw [applyMonitorOp, h]; exact hnd
    · rw [applyMonitorOp, h]; exact addDeployment_nodup hnd
  | update h c =>
    rw [applyMonitorOp, updateDeployment_map_txHash]
    exact hnd

theorem applyMonitorOp_tokenAddress_preserved {s : List Deployment}
    (hnd : (s.map Deployment.txHash).Nodup) (op : MonitorOp)
    {d d' : Deployment} (hd : d ∈ s) (hd' : d' ∈ applyMonitorOp s op)
    (hh : d'.txHash = d.txHash) : d'.tokenAddress = d.tokenAddress := by
  have hinj := List.inj_on_of_nodup_map hnd
  cases op with
  | extract tx receipt known ts name mc =>
    rcases extractAndStoreDeployment_cases s tx receipt known ts name mc with h | ⟨hany, nd, hndh, h⟩
    · rw [applyMonitorOp, h] at hd'
      exact congrArg Deployment.tokenAddress (hinj hd' hd hh)
    · rw [applyMonitorOp, h] at hd'
      rcases mem_addDeployment hd' with h1 | h2
      · exfalso
        apply hany
        refine List.any_eq_true.mpr ⟨d, hd, decide_eq_true ?_⟩
        rw [← hndh, ← h1, hh]
      · exact congrArg Deployment.tokenAddress (hinj h2 hd hh)
  | update h c =>
    rw [applyMonitorOp] at hd'
    rcases mem_updateDeployment hd' with h1 | ⟨w, hw, hwh, hde⟩
    · exact congrArg Deployment.tokenAddress (hinj h1 hd hh)
    · have hwd : w = d := by
        apply hinj hw hd
        rw [← hh, hde, applyUpdate_txHash]
      subst hde
      rw [applyUpdate_tokenAddress (MonitorUpdateCall.fields_tokenAddress c), hwd]

/-- C1: starting from a store whose `txHash`es are pairwise distinct,
every sequence of monitor operations (extractions and monitor-issued
updates) keeps them pairwise distinct, and no single operation ever
changes the stored `tokenAddress` of a deployment that remains in the
store across it (every monitor update payload omits `tokenAddress`, and a
duplicate `txHash` or resolved token address makes the extraction skip). -/
theorem extract_unique_txHash_tokenAddress_immutable
    (ops : List MonitorOp) (store : List Deployment)
    (hnd : (store.map Deployment.txHash).Nodup) :
    ((ops.foldl applyMonitorOp store).map Deployment.txHash).Nodup ∧
    ∀ (s : List Deployment) (op : MonitorOp), (s.map Deployment.txHash).Nodup →
      ∀ d ∈ s, ∀ d' ∈ applyMonitorOp s op,
        d'.txHash = d.txHash → d'.tokenAddress = d.tokenAddress := by
  constructor
  · induction ops generalizing store with
    | nil => exact hnd
    | cons op rest ih => exact ih _ (applyMonitorOp_nodup hnd op)
  · intro s op hs d hd d' hd' hh
    exact applyMonitorOp_tokenAddress_preserved hs op hd hd' hh

/-- Witness for C1 at a concrete store and operation. -/
theorem extract_unique_txHash_tokenAddress_immutable_witness :
    (([mkDep 1].map Deployment.txHash)).Nodup ∧
    ((([MonitorOp.update 1 .prune].foldl applyMonitorOp [mkDep 1]).map
        Deployment.txHash).Nodup ∧
      (applyUpdate (mkDep 1) MonitorUpdateCall.prune.fields).tokenAddress =
        (mkDep 1).tokenAddress) :=
  ⟨by decide,
   (extract_unique_txHash_tokenAddress_immutable [MonitorOp.update 1 .prune] [mkDep 1]
      (by decide)).1,
   (extract_unique_txHash_tokenAddress_immutable [] [] (by decide)).2
     [mkDep 1] (.update 1 .prune) (by decide) (mkDep 1) (by decide)
     (applyUpdate (mkDep 1) MonitorUpdateCall.prune.fields) (by decide) (by decide)⟩

/-- C5 counterexample: with the JSON store at its `MAX_ENTRIES = 1000`
capacity, adding a fresh deployment physically removes the oldest stored
record, so a previously returned deployment is no longer present. -/
theorem addDeployment_at_capacity_drops_oldest :
    mkDep 999 ∈ fullStore ∧ mkDep 999 ∉ addDeployment fullStore (mkDep 1000) := by
  constructor
  · exact List.mem_map.mpr ⟨999, List.mem_range.mpr (by norm_num [MAX_ENTRIES]), rfl⟩
  · intro hmem
    have hany : fullStore.any (fun e => e.txHash = (mkDep 1000).txHash) = false := by
      rw [List.any_eq_false]
      intro e he
      rcases List.mem_map.mp he with ⟨x, hx, hxe⟩
      have hlt : x < 1000 := List.mem_range.mp hx
      simp only [← hxe, mkDep, decide_eq_true_eq]
      omega
    rw [addDeployment, hany] at hmem
    simp only [Bool.false_eq_true, if_false] at hmem
    have h1000 : MAX_ENTRIES = 999 + 1 := by norm_num [MAX_ENTRIES]
    rw [h1000, List.take_succ_cons] at hmem
    rcases List.mem_cons.mp hmem with h1 | h2
    · have := congrArg Deployment.txHash h1
      simp [mkDep] at this
    · have htake : fullStore.take 999 = (List.range 999).map mkDep := by
        rw [fullStore, ← List.map_take, List.take_range]
        norm_num [MAX_ENTRIES]
      rw [htake] at h2
      rcases List.mem_map.mp h2 with ⟨x, hx, hxe⟩
      have hlt := List.mem_range.mp hx
      have hxx : x = 999 := congrArg Deployment.txHash hxe
      omega

/-- C5 (amended): `updateDeployment` never removes a record (it only
replaces the matched record's fields, keeping its `txHash`), and
`addDeployment` keeps every existing record verbatim as long as the store
is below its `MAX_ENTRIES` capacity; only an insertion at capacity drops
the oldest record. -/
theorem store_records_persist_below_capacity
    (s : List Deployment) (h : Nat) (u : UpdateFields) (nd : Deployment)
    (hlen : s.length < MAX_ENTRIES) :
    (updateDeployment s h u).map Deployment.txHash = s.map Deployment.txHash ∧
    ∀ d ∈ s, d ∈ addDeployment s nd := by
  refine ⟨updateDeployment_map_txHash s h u, ?_⟩
  intro d hd
  rw [addDeployment]
  split
  · exact hd
  · rw [List.take_of_length_le (by simp; omega)]
    exact List.mem_cons_of_mem nd hd

/-- Witness for the amended C5 at a concrete one-element store. -/
theorem store_records_persist_below_capacity_witness :
    [mkDep 1].length < MAX_ENTRIES ∧
    ((updateDeployment [mkDep 1] 1 { isPruned := some true }).map Deployment.txHash =
        [mkDep 1].map Deployment.txHash ∧
      ∀ d ∈ [mkDep 1], d ∈ addDeployment [mkDep 1] (mkDep 2)) :=
  ⟨by decide,
   store_records_persist_below_capacity [mkDep 1] 1 { isPruned := some true } (mkDep 2)
     (by decide)⟩

/-- Context values of one `updateHolderCounts` cycle: the wall clock, the
operating mode, the poll interval and the volume floor. -/
structure SchedCtx where
  currentTimestamp : Nat
  catchUpMode : Bool
  pollInterval : Nat
  minVolumeThreshold : ℚ
  deriving DecidableEq

/-- JavaScript `x || fb` over optional numbers: a missing or zero value
falls through to the fallback. -/
def jsOr (x : Option Nat) (fb : Option Nat) : Option Nat :=
  match x with
  | some v => if v = 0 then fb else some v
  | none => fb

/-- JavaScript truthiness of an optional number. -/
def jsTruthy (x : Option Nat) : Bool :=
  match x with
  | some v => v ≠ 0
  | none => false

/-- The last two history entries, as `(previous, recent)` =
`(history[length-2], history[length-1])`; `none` when fewer than two. -/
def lastTwo (l : List HistoryEntry) : Option (HistoryEntry × HistoryEntry) :=
  match l.reverse with
  | recent :: previous :: _ => some (previous, recent)
  | _ => none

/-- Outcome of the `validTokens` filter callback in `updateHolderCounts`:
drop the token, drop it and proactively mark it pruned, or keep it. -/
inductive FilterOutcome
  | excluded
  | pruneAndExclude
  | keep
  deriving DecidableEq

/-- The `validTokens` filter of `updateHolderCounts`, in source order:
missing/`'N/A'` address, known token address, known token name, the
volume floor for tokens older than an hour, an already-set `isPruned`
flag, then the proactive prune condition (older than an hour with at most
5 holders); anything surviving is kept. -/
def firstPassFilter (ctx : SchedCtx) (d : Deployment) : FilterOutcome :=
  match d.tokenAddress with
  | none => .excluded
  | some addr =>
    if KNOWN_TOKENS.contains addr then .excluded
    else if KNOWN_TOKEN_NAMES.contains d.tokenName.trim.toUpper then .excluded
    else if ctx.currentTimestamp - d.timestamp > 3600 ∧
        d.volume24h < ctx.minVolumeThreshold then .excluded
    else if d.isPruned then .excluded
    else if ctx.currentTimestamp - d.timestamp > 3600 ∧ d.holderCount ≤ 5 then
      .pruneAndExclude
    else .keep

/-- The tokens surviving the first-pass filter, in stored order. -/
def validTokens (ctx : SchedCtx) (ds : List Deployment) : List Deployment :=
  ds.filter (fun d => decide (firstPassFilter ctx d = .keep))

/-- The `txHash`es the filter proactively marks `isPruned` this cycle. -/
def proactivePruneList (ctx : SchedCtx) (ds : List Deployment) : List Nat :=
  (ds.filter (fun d => decide (firstPassFilter ctx d = .pruneAndExclude))).map
    Deployment.txHash

/-- The post-refresh prune test of `updateHolderCounts`:
`age > 3600 && newHolderCount <= 5`. -/
def shouldPrune (currentTimestamp : Nat) (d : Deployment) (newHolderCount : Nat) : Bool :=
  currentTimestamp - d.timestamp > 3600 ∧ newHolderCount ≤ 5

/-- The backend composite runner score (computed inside
`updateHolderCounts`, "same as frontend"): zero with fewer than two
history entries, otherwise `volume24h*0.4 + min(growthPercent/10,10)*0.4
+ min(growth,50)*0.2` with `growthPercent = 0` for a zero previous
count. -/
def backendRunnerScore (d : Deployment) : ℚ :=
  match lastTwo d.holderCountHistory with
  | some (previous, recent) =>
    let growth : ℚ := (recent.count : ℚ) - (previous.count : ℚ)
    let growthPercent : ℚ :=
      if (previous.count : ℚ) > 0 then growth / (previous.count : ℚ) * 100 else 0
    let normalizedGrowth := min (growthPercent / 10) 10
    let normalizedAbsGrowth := min growth 50
    d.volume24h * (4/10) + normalizedGrowth * (4/10) + normalizedAbsGrowth * (2/10)
  | none => 0

/-- One entry of `tokensWithPriority`. -/
structure ScoredToken where
  deployment : Deployment
  priority : ℚ
  lastCheck : Option Nat
  recentVolume : Nat
  isTier1 : Bool
  isStale : Bool
  hasNoData : Bool
  hasActivity : Bool
  score : ℚ
  deriving DecidableEq

/-- The priority computation of `updateHolderCounts` (second pass),
translated branch by branch: tier bonuses, recent-volume bonuses, age
bonuses, holder-growth bonuses, the catch-up/no-data boosts, the chill
cooldown penalties and bonuses, the holder-count and dev-buy bonuses. -/
def computeScored (ctx : SchedCtx) (d : Deployment) (recentVolume : Nat) : ScoredToken :=
  let history := d.holderCountHistory
  let lastCheck := jsOr d.lastHolderCheck
    (match history.reverse with
     | e :: _ => some e.timestamp
     | [] => none)
  let age := ctx.currentTimestamp - d.timestamp
  let hasData : Bool := lastCheck.isSome && decide (history.length > 0)
  let hasNoData : Bool := ! hasData
  let cyclesSinceCheck :=
    if jsTruthy lastCheck then (ctx.currentTimestamp - lastCheck.getD 0) / ctx.pollInterval
    else 0
  let isStale : Bool := hasData && decide (cyclesSinceCheck ≥ 2)
  let hasActivity : Bool :=
    match lastTwo history with
    | some (previous, recent) =>
      decide ((recent.count : ℤ) - (previous.count : ℤ) > 0) ||
        decide (d.volume24h > 0) || decide (d.marketCap > 0)
    | none => false
  let holderCount := d.holderCount
  let marketCap := d.marketCap
  let score := backendRunnerScore d
  let isTier1 : Bool :=
    decide (marketCap > 10000) || decide (holderCount > 50) || decide (score > 1)
  let p1 : ℚ :=
    if ctx.catchUpMode && hasNoData then 0
    else if isTier1 && ! isStale then
      (if marketCap > 100000 then (10000 : ℚ)
       else if marketCap > 50000 then 5000
       else if marketCap > 10000 then 2000 else 0) +
      (if holderCount > 100 then (5000 : ℚ)
       else if holderCount > 50 then 2000 else 0) +
      (if score > 5 then (5000 : ℚ)
       else if score > 2 then 2000
       else if score > 1 then 1000 else 0)
    else if isTier1 && isStale then 500
    else 0
  let p2 := p1 + (if ! isTier1 && hasActivity && ! isStale then (1000 : ℚ) else 0)
  let p3 := p2 +
    (if recentVolume > 50 then (2000 : ℚ)
     else if recentVolume > 20 then 1000
     else if recentVolume > 10 then 500
     else if recentVolume > 5 then 200
     else if recentVolume > 0 then 100 else 0)
  let p4 := p3 +
    (if age < 3600 then (1000 : ℚ)
     else if age < 7200 then 500
     else if age < 14400 then 200 else 0)
  let p5 := p4 +
    (match lastTwo history with
     | some (previous, recent) =>
       let growth : ℚ := (recent.count : ℚ) - (previous.count : ℚ)
       let growthPercent : ℚ :=
         if (previous.count : ℚ) > 0 then growth / (previous.count : ℚ) * 100 else 0
       if growth > 0 then
         min (growth * 10) 500 + (if growthPercent > 10 then (300 : ℚ) else 0)
       else 0
     | none => 0)
  let timeSinceCheck : Option Nat :=
    if jsTruthy lastCheck then some (ctx.currentTimestamp - lastCheck.getD 0) else none
  let tsLT : Nat → Bool := fun c =>
    match timeSinceCheck with
    | some v => decide (v < c)
    | none => false
  let tsGT : Nat → Bool := fun c =>
    match timeSinceCheck with
    | some v => decide (v > c)
    | none => true
  let isVeryNew : Bool := decide (age < 3600)
  let p6 := p5 +
    (if ctx.catchUpMode then
      (if hasNoData then (50000 : ℚ)
       else if isStale then 20000
       else if hasData && ! hasActivity then 200 else 0)
     else
      (if hasNoData then (1500 : ℚ)
       else if hasData && ! hasActivity && ! isStale then 200
       else if isStale then 100 else 0))
  let hasNoActivity : Bool := ! hasActivity && hasData
  let p7 := p6 +
    (if hasNoActivity && tsLT 300 then (-10000 : ℚ)
     else if hasNoActivity && tsLT 600 then -5000
     else if tsLT 600 && ! isVeryNew && ! isTier1 && ! hasActivity then -5000
     else if tsLT 1200 && ! isVeryNew && ! isTier1 && ! hasActivity then -2000
     else if tsLT 1800 && ! isTier1 && ! hasActivity then -500
     else if tsGT 300 && ! isStale && hasNoActivity then 100
     else if tsGT 1800 && ! isStale && hasActivity then 400
     else if tsGT 1200 && ! isStale && hasActivity then 200
     else if tsGT 600 && ! isStale && hasActivity then 100
     else 0)
  let p8 := p7 +
    (if holderCount > 100 then (500 : ℚ)
     else if holderCount > 50 then 300
     else if holderCount > 20 then 150
     else if holderCount > 10 then 75
     else if holderCount > 5 then 30 else 0)
  let p9 := p8 +
    (if d.devBuyAmount > 1 then (400 : ℚ)
     else if d.devBuyAmount > 1/2 then 250
     else if d.devBuyAmount > 1/4 then 150
     else if d.devBuyAmount > 1/10 then 75
     else if d.devBuyAmount > 0 then 25 else 0)
  { deployment := d
    priority := p9
    lastCheck := lastCheck
    recentVolume := recentVolume
    isTier1 := isTier1
    isStale := isStale
    hasNoData := hasNoData
    hasActivity := hasActivity
    score := score }

/-- Number of tokens receiving the first-pass volume probe
(`CATCH_UP_MODE ? 50 : 10`). -/
def volumeCheckCount (catchUp : Bool) : Nat := if catchUp then 50 else 10

/-- `tokensWithVolume`: the first `volumeCheckCount` eligible tokens,
each paired with its probed recent transfer count, followed by every
eligible token from index 20 onward paired with volume 0. -/
def tokensWithVolume (catchUp : Bool) (recentVolumeOf : Deployment → Nat)
    (valid : List Deployment) : List (Deployment × Nat) :=
  (valid.take (volumeCheckCount catchUp)).map (fun d => (d, recentVolumeOf d)) ++
    (valid.drop 20).map (fun d => (d, 0))

/-- The `filteredByCooldown` predicate of `updateHolderCounts`. -/
def cooldownKeep (ctx : SchedCtx) (t : ScoredToken) : Bool :=
  let age := ctx.currentTimestamp - t.deployment.timestamp
  let isVeryNew := age < 3600
  let lastCheck := (jsOr t.lastCheck
    (match t.deployment.holderCountHistory.reverse with
     | e :: _ => some e.timestamp
     | [] => some t.deployment.timestamp)).getD t.deployment.timestamp
  let timeSinceCheck := ctx.currentTimestamp - lastCheck
  let hasData : Bool := decide (t.deployment.holderCountHistory.length > 0)
  if ! t.hasActivity && hasData && decide (timeSinceCheck < 300) then false
  else decide (t.priority > 0) || (isVeryNew && decide (timeSinceCheck > 300)) || t.hasActivity

/-- Per-cycle holder-refresh budget:
`consecutiveRateLimits > 3 ? 1 : (CATCH_UP_MODE ? 10 : 1)`. -/
def maxTokensPerCycle (consecutiveRateLimits : Nat) (catchUp : Bool) : Nat :=
  if consecutiveRateLimits > 3 then 1 else if catchUp then 10 else 1

/-- The `toUpdate` selection of `updateHolderCounts`: filter, probe, score,
sort by priority descending, apply the cooldown filter, truncate to the
per-cycle budget and project back to the deployments. -/
def selectForRefresh (ctx : SchedCtx) (consecutiveRateLimits : Nat)
    (recentVolumeOf : Deployment → Nat) (ds : List Deployment) : List Deployment :=
  let valid := validTokens ctx ds
  let scored := (tokensWithVolume ctx.catchUpMode recentVolumeOf valid).map
    (fun p => computeScored ctx p.1 p.2)
  let sorted := scored.insertionSort (fun a b => b.priority ≤ a.priority)
  let filtered := sorted.filter (cooldownKeep ctx)
  (filtered.take (maxTokensPerCycle consecutiveRateLimits ctx.catchUpMode)).map
    (fun t => t.deployment)

/-- The frontend `calculateRunnerScore` of TokenFeed (score component):
computed for any history length, growth from a zero previous count counts
as 100%, and the result is clamped at 0. -/
def calculateRunnerScore (d : Deployment) : ℚ :=
  let pair : ℚ × ℚ :=
    match lastTwo d.holderCountHistory with
    | some (previous, recent) =>
      let absGrowth : ℚ := (recent.count : ℚ) - (previous.count : ℚ)
      (if (previous.count : ℚ) > 0 then absGrowth / (previous.count : ℚ) * 100
       else if absGrowth > 0 then 100 else 0, absGrowth)
    | none => (0, 0)
  let normalizedGrowth := min (pair.1 / 10) 10
  let normalizedAbsGrowth := min pair.2 50
  max 0 (d.volume24h * (4/10) + normalizedGrowth * (4/10) + normalizedAbsGrowth * (2/10))

theorem computeScored_deployment (ctx : SchedCtx) (d : Deployment) (rv : Nat) :
    (computeScored ctx d rv).deployment = d := rfl

theorem firstPassFilter_keep_not_pruned {ctx : SchedCtx} {d : Deployment}
    (h : firstPassFilter ctx d = .keep) : d.isPruned = false := by
  unfold firstPassFilter at h
  split at h
  · exact absurd h (by simp)
  · split at h
    · exact absurd h (by simp)
    · split at h
      · exact absurd h (by simp)
      · split at h
        · exact absurd h (by simp)
        · split at h
          · exact absurd h (by simp)
          · rename_i hp
            exact eq_false_of_ne_true hp

/-- C2: the per-cycle refresh selection never exceeds the budget
(1 normally, 10 in catch-up mode, 1 under more than 3 consecutive rate
limits) and never contains a pruned deployment (the first-pass filter
drops every `isPruned` record before scoring). -/
theorem selectForRefresh_budget_and_no_pruned
    (ctx : SchedCtx) (crl : Nat) (rv : Deployment → Nat) (ds : List Deployment) :
    (selectForRefresh ctx crl rv ds).length ≤ maxTokensPerCycle crl ctx.catchUpMode ∧
    (selectForRefresh ctx crl rv ds).all (fun d => ! d.isPruned) = true := by
  constructor
  · rw [selectForRefresh]
    simp only [List.length_map]
    exact List.length_take_le _ _
  · rw [List.all_eq_true]
    intro d hd
    suffices h : d.isPruned = false by simp [h]
    simp only [selectForRefresh, List.mem_map] at hd
    obtain ⟨t, ht, hteq⟩ := hd
    have h2 := List.mem_of_mem_take ht
    have h3 := List.mem_of_mem_filter h2
    have h4 : t ∈ (tokensWithVolume ctx.catchUpMode rv (validTokens ctx ds)).map
        (fun p => computeScored ctx p.1 p.2) :=
      (List.perm_insertionSort (fun a b => b.priority ≤ a.priority) _).mem_iff.mp h3
    simp only [List.mem_map] at h4
    obtain ⟨p, hp, hpe⟩ := h4
    have hdep : t.deployment = p.1 := by
      rw [← hpe, computeScored_deployment]
    have hvalid : p.1 ∈ validTokens ctx ds := by
      rcases List.mem_append.mp hp with hL | hR
      · obtain ⟨e, he, hee⟩ := List.mem_map.mp hL
        rw [← hee]
        exact List.mem_of_mem_take he
      · obtain ⟨e, he, hee⟩ := List.mem_map.mp hR
        rw [← hee]
        exact List.mem_of_mem_drop he
    have hkeep : firstPassFilter ctx p.1 = .keep := by
      rw [validTokens] at hvalid
      exact of_decide_eq_true (List.mem_filter.mp hvalid).2
    rw [← hteq, hdep]
    exact firstPassFilter_keep_not_pruned hkeep

/-- A scheduler context in steady-state mode. -/
def wCtx : SchedCtx :=
  { currentTimestamp := 1000, catchUpMode := false, pollInterval := 90000,
    minVolumeThreshold := 1 }

/-- A scheduler context whose clock is less than 5 minutes past epoch. -/
def wCtxYoung : SchedCtx :=
  { currentTimestamp := 100, catchUpMode := false, pollInterval := 90000,
    minVolumeThreshold := 1 }

/-- C6: a token younger than 5 minutes is pruned by neither site that
writes `isPruned`: the scheduler's proactive filter branch and the
post-refresh prune test both require an age above 3600 seconds. -/
theorem very_new_token_never_pruned (ctx : SchedCtx) (d : Deployment)
    (newHolderCount : Nat) (hage : ctx.currentTimestamp - d.timestamp < 300) :
    firstPassFilter ctx d ≠ .pruneAndExclude ∧
    shouldPrune ctx.currentTimestamp d newHolderCount = false := by
  constructor
  · intro h
    unfold firstPassFilter at h
    split at h
    · exact absurd h (by simp)
    · split at h
      · exact absurd h (by simp)
      · split at h
        · exact absurd h (by simp)
        · split at h
          · exact absurd h (by simp)
          · split at h
            · exact absurd h (by simp)
            · split at h
              · rename_i hcond
                exact absurd hcond.1 (by omega)
              · exact absurd h (by simp)
  · simp only [shouldPrune, decide_eq_false_iff_not, not_and]
    intro h
    omega

/-- Witness for C6 at a 100-second-old token. -/
theorem very_new_token_never_pruned_witness :
    wCtxYoung.currentTimestamp - (mkDep 1).timestamp < 300 ∧
    (firstPassFilter wCtxYoung (mkDep 1) ≠ .pruneAndExclude ∧
      shouldPrune wCtxYoung.currentTimestamp (mkDep 1) 0 = false) :=
  ⟨by decide, very_new_token_never_pruned wCtxYoung (mkDep 1) 0 (by decide)⟩

theorem get_mem_take {α : Type _} {l : List α} {i n : Nat}
    (hi : i < l.length) (hn : i < n) : l.get ⟨i, hi⟩ ∈ l.take n := by
  have hlen : i < (l.take n).length := by
    simp only [List.length_take]
    omega
  have heq : (l.take n).get ⟨i, hlen⟩ = l.get ⟨i, hi⟩ := by
    simp only [List.get_eq_getElem]
    rw [List.getElem_take]
  rw [← heq]
  exact List.get_mem _ _ _

theorem get_mem_drop {α : Type _} {l : List α} {i n : Nat}
    (hi : i < l.length) (hn : n ≤ i) : l.get ⟨i, hi⟩ ∈ l.drop n := by
  have hlen : i - n < (l.drop n).length := by
    simp only [List.length_drop]
    omega
  have heq : (l.drop n).get ⟨i - n, hlen⟩ = l.get ⟨i, hi⟩ := by
    simp only [List.get_eq_getElem]
    rw [List.getElem_drop]
    simp [Nat.add_sub_cancel' hn]
  rw [← heq]
  exact List.get_mem _ _ _

/-- C10: the scored candidate list is the first `N` eligible tokens
(`N = 50` in catch-up mode, `10` in normal mode) concatenated with all
eligible tokens from index 20 on; hence in normal mode the tokens at
positions 10–19 of the eligible list are absent from the candidates, and
in catch-up mode the tokens at positions 20–49 occur twice. -/
theorem scheduler_candidate_window (l : List Deployment) (rv : Deployment → Nat)
    (hnd : l.Nodup) :
    ((tokensWithVolume false rv l).map Prod.fst = l.take 10 ++ l.drop 20) ∧
    ((tokensWithVolume true rv l).map Prod.fst = l.take 50 ++ l.drop 20) ∧
    (∀ (i : Nat) (hi : i < l.length), 10 ≤ i → i < 20 →
      l.get ⟨i, hi⟩ ∉ (tokensWithVolume false rv l).map Prod.fst) ∧
    (∀ (i : Nat) (hi : i < l.length), 20 ≤ i → i < 50 →
      ((tokensWithVolume true rv l).map Prod.fst).count (l.get ⟨i, hi⟩) = 2) := by
  have hmap : ∀ c : Bool,
      (tokensWithVolume c rv l).map Prod.fst = l.take (volumeCheckCount c) ++ l.drop 20 := by
    intro c
    simp [tokensWithVolume, List.map_map, Function.comp_def]
  have h10 : (tokensWithVolume false rv l).map Prod.fst = l.take 10 ++ l.drop 20 := by
    simpa [volumeCheckCount] using hmap false
  have h50 : (tokensWithVolume true rv l).map Prod.fst = l.take 50 ++ l.drop 20 := by
    simpa [volumeCheckCount] using hmap true
  refine ⟨h10, h50, ?_, ?_⟩
  · intro i hi hge hlt hmem
    rw [h10] at hmem
    rcases List.mem_append.mp hmem with hL | hR
    · have hnd10 : (l.take 10 ++ l.drop 10).Nodup := by
        rw [List.take_append_drop]
        exact hnd
      exact List.disjoint_of_nodup_append hnd10 hL (get_mem_drop hi hge)
    · have hnd20 : (l.take 20 ++ l.drop 20).Nodup := by
        rw [List.take_append_drop]
        exact hnd
      exact List.disjoint_of_nodup_append hnd20 (get_mem_take hi hlt) hR
  · intro i hi hge hlt
    rw [h50, List.count_append]
    have hndt : (l.take 50).Nodup := hnd.sublist (List.take_sublist 50 l)
    have hndd : (l.drop 20).Nodup := hnd.sublist (List.drop_sublist 20 l)
    rw [List.count_eq_one_of_mem hndt (get_mem_take hi hlt),
      List.count_eq_one_of_mem hndd (get_mem_drop hi hge)]

/-- Sixty pairwise distinct deployments, most recent first. -/
def w60 : List Deployment := (List.range 60).map mkDep

theorem w60_nodup : w60.Nodup := by
  refine List.Nodup.map ?_ (List.nodup_range 60)
  intro a b hab
  exact congrArg Deployment.txHash hab

theorem w60_length : w60.length = 60 := by
  simp [w60]

/-- Witness for C10: position 10 is skipped in normal mode and position
20 is duplicated in catch-up mode, over a 60-token eligible list. -/
theorem scheduler_candidate_window_witness :
    w60.Nodup ∧
    mkDep 10 ∉ (tokensWithVolume false (fun _ => 0) w60).map Prod.fst ∧
    ((tokensWithVolume true (fun _ => 0) w60).map Prod.fst).count (mkDep 20) = 2 := by
  have h := scheduler_candidate_window w60 (fun _ => 0) w60_nodup
  have h10 : w60.get ⟨10, by rw [w60_length]; omega⟩ = mkDep 10 := by
    simp [w60]
  have h20 : w60.get ⟨20, by rw [w60_length]; omega⟩ = mkDep 20 := by
    simp [w60]
  refine ⟨w60_nodup, ?_, ?_⟩
  · rw [← h10]
    exact h.2.2.1 10 (by rw [w60_length]; omega) (by omega) (by omega)
  · rw [← h20]
    exact h.2.2.2 20 (by rw [w60_length]; omega) (by omega) (by omega)

theorem lastTwo_eq_none {l : List HistoryEntry} (h : l.length < 2) :
    lastTwo l = none := by
  unfold lastTwo
  match hr : l.reverse with
  | [] => rfl
  | [a] => rfl
  | a :: b :: t =>
    exfalso
    have : l.reverse.length = l.length := List.length_reverse l
    rw [hr] at this
    simp at this
    omega

/-- A deployment with nonzero 24h volume and two holder history
entries (10 then 15 holders). -/
def depWithHistory : Deployment :=
  { mkDep 3 with
    volume24h := 1
    holderCountHistory := [{ count := 10, timestamp := 0 }, { count := 15, timestamp := 5 }] }

/-- A deployment with nonzero 24h volume and no holder history. -/
def depNoHistory : Deployment := { mkDep 4 with volume24h := 1 }

/-- C9 counterexample: the frontend display score of a token with fewer
than two history entries is `volume24h * 0.4`, not 0 — here `0.4 ≠ 0`
for a token with 1 ETH of 24h volume. -/
theorem display_score_nonzero_below_two_entries :
    depNoHistory.holderCountHistory.length < 2 ∧
    calculateRunnerScore depNoHistory = 2/5 ∧ ((2 : ℚ)/5 ≠ 0) := by
  refine ⟨by decide, ?_, by norm_num⟩
  show max 0 ((1 : ℚ) * (4/10) + min ((0 : ℚ)/10) 10 * (4/10) + min (0 : ℚ) 50 * (2/10)) = 2/5
  norm_num

/-- C9 (amended): the backend ranking score follows the claimed formula —
zero with fewer than two history entries, otherwise
`volume24h*0.4 + min(growthPercent/10,10)*0.4 + min(absoluteGrowth,50)*0.2`
with `growthPercent = 0` when the previous count is zero.  The frontend
display score uses the same weights but is also computed with fewer than
two entries, where it equals `max 0 (volume24h*0.4)` instead of 0. -/
theorem runner_score_formula (d : Deployment) :
    (∀ previous recent, lastTwo d.holderCountHistory = some (previous, recent) →
      backendRunnerScore d =
        d.volume24h * (4/10) +
          min ((if (previous.count : ℚ) > 0 then
              ((recent.count : ℚ) - (previous.count : ℚ)) / (previous.count : ℚ) * 100
            else 0) / 10) 10 * (4/10) +
          min ((recent.count : ℚ) - (previous.count : ℚ)) 50 * (2/10)) ∧
    (d.holderCountHistory.length < 2 → backendRunnerScore d = 0) ∧
    (d.holderCountHistory.length < 2 →
      calculateRunnerScore d = max 0 (d.volume24h * (4/10))) := by
  refine ⟨?_, ?_, ?_⟩
  · intro previous recent h
    unfold backendRunnerScore
    rw [h]
  · intro h
    unfold backendRunnerScore
    rw [lastTwo_eq_none h]
  · intro h
    unfold calculateRunnerScore
    rw [lastTwo_eq_none h]
    norm_num

/-- Witness for the amended C9 at two concrete deployments: one with a
10→15 holder history, one with no history. -/
theorem runner_score_formula_witness :
    (lastTwo depWithHistory.holderCountHistory =
      some ({ count := 10, timestamp := 0 }, { count := 15, timestamp := 5 })) ∧
    (backendRunnerScore depWithHistory =
      depWithHistory.volume24h * (4/10) +
        min ((if ((10 : Nat) : ℚ) > 0 then
            (((15 : Nat) : ℚ) - ((10 : Nat) : ℚ)) / ((10 : Nat) : ℚ) * 100
          else 0) / 10) 10 * (4/10) +
        min (((15 : Nat) : ℚ) - ((10 : Nat) : ℚ)) 50 * (2/10)) ∧
    depNoHistory.holderCountHistory.length < 2 ∧
    backendRunnerScore depNoHistory = 0 ∧
    calculateRunnerScore depNoHistory = max 0 (depNoHistory.volume24h * (4/10)) :=
  ⟨by decide,
   (runner_score_formula depWithHistory).1
     { count := 10, timestamp := 0 } { count := 15, timestamp := 5 } (by decide),
   by decide,
   (runner_score_formula depNoHistory).2.1 (by decide),
   (runner_score_formula depNoHistory).2.2 (by decide)⟩

/-- A pure ledger read: the chain's logs matching the filter whose block
number lies in `[fromBlock, toBlock]` — what one successful `getLogs`
call over that range returns. -/
def getLogsPure (chain : List Log) (flt : Log → Bool) (fromBlock toBlock : Nat) : List Log :=
  chain.filter (fun lg =>
    flt lg && decide (fromBlock ≤ lg.blockNumber) && decide (lg.blockNumber ≤ toBlock))

/-- Outcome of one `provider.getLogs` attempt: success, a 429-style
throttling error, or any other error. -/
inductive RpcOutcome
  | ok
  | rateLimited
  | otherError
  deriving DecidableEq, Repr

/-- The gateway's mutable rate-limit state: the `consecutiveRateLimits`
counter, plus a running index numbering the RPC attempts so the network
oracle can answer each attempt. -/
structure GatewayState where
  consecutiveRateLimits : Nat
  callIndex : Nat
  deriving DecidableEq, Repr

/-- The per-chunk retry loop of `getLogsInChunks`
(`while (retries > 0 && !success)`): a success pushes the chunk's logs
and resets `consecutiveRateLimits` to 0; a throttling error increments
the counter, burns a retry and loops; any other error abandons the chunk
without touching the counter. -/
def runChunkAttempts (chain : List Log) (flt : Log → Bool) (net : Nat → RpcOutcome)
    (blockNum endBlock : Nat) :
    Nat → GatewayState → Option (List Log) × GatewayState
  | 0, st => (none, st)
  | retries + 1, st =>
    match net st.callIndex with
    | .ok =>
      (some (getLogsPure chain flt blockNum endBlock),
       { consecutiveRateLimits := 0, callIndex := st.callIndex + 1 })
    | .rateLimited =>
      runChunkAttempts chain flt net blockNum endBlock retries
        { consecutiveRateLimits := st.consecutiveRateLimits + 1,
          callIndex := st.callIndex + 1 }
    | .otherError => (none, { st with callIndex := st.callIndex + 1 })

/-- `getLogsInChunks`: walk `[fromBlock, toBlock]` in windows of
`maxBlockRange` blocks, each chunk fetched through the retry loop with 3
attempts; a chunk the retries cannot fetch contributes no logs.  The
`maxBlockRange = 0` guard (on which the source loop would not advance)
returns no logs. -/
def getLogsInChunksRun (chain : List Log) (flt : Log → Bool) (net : Nat → RpcOutcome)
    (fromBlock toBlock maxBlockRange : Nat) (st : GatewayState) :
    List Log × GatewayState :=
  if maxBlockRange = 0 ∨ toBlock < fromBlock then ([], st)
  else
    let endBlock := min (fromBlock + maxBlockRange - 1) toBlock
    let chunk := runChunkAttempts chain flt net fromBlock endBlock 3 st
    let rest := getLogsInChunksRun chain flt net (fromBlock + maxBlockRange) toBlock
      maxBlockRange chunk.2
    (chunk.1.getD [] ++ rest.1, rest.2)
  termination_by toBlock + 1 - fromBlock
  decreasing_by
    rename_i h
    push_neg at h
    omega

theorem mem_getLogsPure {chain : List Log} {flt : Log → Bool} {a b : Nat} {lg : Log} :
    lg ∈ getLogsPure chain flt a b ↔
      lg ∈ chain ∧ flt lg = true ∧ a ≤ lg.blockNumber ∧ lg.blockNumber ≤ b := by
  simp [getLogsPure, List.mem_filter, and_assoc]

theorem getLogsInChunksRun_mem (chain : List Log) (flt : Log → Bool)
    (net : Nat → RpcOutcome) (hok : ∀ n, net n = .ok)
    (toBlock maxBlockRange : Nat) (hpos : 0 < maxBlockRange) :
    ∀ (fromBlock : Nat) (st : GatewayState) (lg : Log),
      (lg ∈ (getLogsInChunksRun chain flt net fromBlock toBlock maxBlockRange st).1 ↔
        lg ∈ getLogsPure chain flt fromBlock toBlock) := by
  suffices h : ∀ (m fromBlock : Nat), toBlock + 1 - fromBlock = m →
      ∀ (st : GatewayState) (lg : Log),
        (lg ∈ (getLogsInChunksRun chain flt net fromBlock toBlock maxBlockRange st).1 ↔
          lg ∈ getLogsPure chain flt fromBlock toBlock) by
    intro fromBlock st lg
    exact h _ fromBlock rfl st lg
  intro m
  induction m using Nat.strong_induction_on with
  | _ m ih =>
    intro fromBlock hm st lg
    rw [getLogsInChunksRun]
    split
    · rename_i hcond
      rcases hcond with h0 | hlt
      · omega
      · rw [iff_comm]
        simp only [List.not_mem_nil, iff_false, mem_getLogsPure]
        rintro ⟨-, -, h1, h2⟩
        omega
    · rename_i hcond
      push_neg at hcond
      have hchunk : runChunkAttempts chain flt net fromBlock
          (min (fromBlock + maxBlockRange - 1) toBlock) 3 st =
          (some (getLogsPure chain flt fromBlock
            (min (fromBlock + maxBlockRange - 1) toBlock)),
           { consecutiveRateLimits := 0, callIndex := st.callIndex + 1 }) := by
        rw [runChunkAttempts, hok]
      have hih := ih (toBlock + 1 - (fromBlock + maxBlockRange)) (by omega)
        (fromBlock + maxBlockRange) rfl
        ({ consecutiveRateLimits := 0, callIndex := st.callIndex + 1 } : GatewayState) lg
      simp only [hchunk, Option.getD_some, List.mem_append]
      rw [hih, mem_getLogsPure, mem_getLogsPure, mem_getLogsPure]
      constructor
      · rintro (⟨hc, hf, h1, h2⟩ | ⟨hc, hf, h1, h2⟩)
        · exact ⟨hc, hf, h1, by omega⟩
        · exact ⟨hc, hf, by omega, h2⟩
      · rintro ⟨hc, hf, h1, h2⟩
        by_cases hcase : lg.blockNumber ≤ min (fromBlock + maxBlockRange - 1) toBlock
        · exact Or.inl ⟨hc, hf, h1, hcase⟩
        · exact Or.inr ⟨hc, hf, by omega, h2⟩

/-- C4: over a block range wider than the per-call limit, when every RPC
attempt succeeds, the chunked fetch returns exactly the logs a single
`getLogs` call over the whole range would return (as a set of logs). -/
theorem chunked_fetch_equals_single_fetch (chain : List Log) (flt : Log → Bool)
    (net : Nat → RpcOutcome) (fromBlock toBlock maxBlockRange : Nat)
    (st : GatewayState) (hpos : 0 < maxBlockRange)
    (hwide : fromBlock + maxBlockRange ≤ toBlock) (hok : ∀ n, net n = .ok) :
    ∀ lg : Log,
      (lg ∈ (getLogsInChunksRun chain flt net fromBlock toBlock maxBlockRange st).1 ↔
        lg ∈ getLogsPure chain flt fromBlock toBlock) :=
  getLogsInChunksRun_mem chain flt net hok toBlock maxBlockRange hpos fromBlock st

/-- A network oracle that always succeeds. -/
def netAllOk : Nat → RpcOutcome := fun _ => .ok

/-- A network oracle that throttles the first attempt and then succeeds. -/
def netFirstThrottled : Nat → RpcOutcome := fun n => if n = 0 then .rateLimited else .ok

/-- A one-log chain used to instantiate the gateway theorems. -/
def wChain : List Log :=
  [{ address := 7, topics := [transferEventSignature, 1, 2], blockNumber := 3 }]

/-- Witness for C4 on a concrete one-log chain split into 3 chunks. -/
theorem chunked_fetch_equals_single_fetch_witness :
    0 < 2 ∧ 0 + 2 ≤ 5 ∧ (∀ n, netAllOk n = .ok) ∧
    (∀ lg : Log,
      (lg ∈ (getLogsInChunksRun wChain (fun _ => true) netAllOk 0 5 2 ⟨0, 0⟩).1 ↔
        lg ∈ getLogsPure wChain (fun _ => true) 0 5)) :=
  ⟨by decide, by decide, fun _ => rfl,
   chunked_fetch_equals_single_fetch wChain (fun _ => true) netAllOk 0 5 2 ⟨0, 0⟩
     (by decide) (by decide) (fun _ => rfl)⟩

/-- C8: a cheap-tier chunk fetch that throttles on the first attempt and
succeeds on the retry returns the successfully fetched logs and leaves
`consecutiveRateLimits` reset to 0 (regardless of its prior value). -/
theorem throttled_then_success_resets_counter (chain : List Log) (flt : Log → Bool)
    (net : Nat → RpcOutcome) (fromBlock toBlock maxBlockRange : Nat)
    (st : GatewayState)
    (hfirst : net st.callIndex = .rateLimited)
    (hrest : ∀ n, n ≠ st.callIndex → net n = .ok)
    (hpos : 0 < maxBlockRange) (hle : fromBlock ≤ toBlock)
    (hone : toBlock ≤ fromBlock + maxBlockRange - 1) :
    getLogsInChunksRun chain flt net fromBlock toBlock maxBlockRange st =
      (getLogsPure chain flt fromBlock toBlock,
       { consecutiveRateLimits := 0, callIndex := st.callIndex + 2 }) := by
  rw [getLogsInChunksRun]
  have hmin : min (fromBlock + maxBlockRange - 1) toBlock = toBlock := by omega
  have hcond : ¬ (maxBlockRange = 0 ∨ toBlock < fromBlock) := by omega
  rw [if_neg hcond]
  have hchunk : runChunkAttempts chain flt net fromBlock
      (min (fromBlock + maxBlockRange - 1) toBlock) 3 st =
      (some (getLogsPure chain flt fromBlock toBlock),
       { consecutiveRateLimits := 0, callIndex := st.callIndex + 2 }) := by
    rw [runChunkAttempts, hfirst]
    rw [runChunkAttempts]
    simp only [hrest (st.callIndex + 1) (by omega), hmin]
  have hrest2 : getLogsInChunksRun chain flt net (fromBlock + maxBlockRange) toBlock
      maxBlockRange
      ({ consecutiveRateLimits := 0, callIndex := st.callIndex + 2 } : GatewayState) =
      ([], { consecutiveRateLimits := 0, callIndex := st.callIndex + 2 }) := by
    rw [getLogsInChunksRun, if_pos (by omega)]
  simp only [hchunk, hrest2, Option.getD_some, List.append_nil]

/-- Witness for C8: counter 5 before the call, logs fetched and counter 0
after it. -/
theorem throttled_then_success_resets_counter_witness :
    netFirstThrottled (0 : Nat) = .rateLimited ∧
    (∀ n : Nat, n ≠ (0 : Nat) → netFirstThrottled n = .ok) ∧
    0 < 10 ∧ 0 ≤ 5 ∧ 5 ≤ 0 + 10 - 1 ∧
    getLogsInChunksRun wChain (fun _ => true) netFirstThrottled 0 5 10 ⟨5, 0⟩ =
      (getLogsPure wChain (fun _ => true) 0 5,
       { consecutiveRateLimits := 0, callIndex := 2 }) :=
  ⟨rfl, fun n hn => by simp [netFirstThrottled, hn], by decide, by decide, by decide,
   throttled_then_success_resets_counter wChain (fun _ => true) netFirstThrottled 0 5 10
     ⟨5, 0⟩ rfl (fun n hn => by simp [netFirstThrottled, hn]) (by decide) (by decide)
     (by decide)⟩

/-- `MAX_BLOCKS_TO_CHECK` of the holder refresh: only the last 200 blocks
are scanned for old tokens. -/
def MAX_BLOCKS_TO_CHECK : Nat := 200

/-- One entry of a `trace_block` result, reduced to the fields
`verifyHoldersWithTrace` reads: `action.to`, `action.from` and whether
`action.value || result` is truthy. -/
structure TraceAction where
  toAddr : Option Nat
  fromAddr : Option Nat
  hasValueOrResult : Bool
  deriving DecidableEq, Repr

/-- The holder a trace entry verifies: its `action.from`, provided the
call targets the token, the sender is a potential holder and the entry
carries a value or result. -/
def traceMatches (tokenAddress : Nat) (potential : List Nat) (t : TraceAction) : Option Nat :=
  match t.toAddr with
  | some toA =>
    if toA = tokenAddress then
      match t.fromAddr with
      | some f => if potential.contains f ∧ t.hasValueOrResult then some f else none
      | none => none
    else none
  | none => none

/-- The sampled block numbers of `verifyHoldersWithTrace`:
`toBlock - i*blockStep` for `i < sampleSize`, stopping (`break`) at the
first one below `fromBlock`. -/
def sampleBlockNums (fromBlock toBlock blockStep sampleSize : Nat) : List Nat :=
  (((List.range sampleSize).map (fun i => (toBlock : ℤ) - (i : ℤ) * (blockStep : ℤ))).takeWhile
    (fun b => decide ((fromBlock : ℤ) ≤ b))).map Int.toNat

/-- `verifyHoldersWithTrace`: without a trace endpoint or with no
candidates, return the candidate count; otherwise sample up to 3 blocks,
collect the distinct verified senders, and return the verified count only
when it is positive and covers at least half the candidates — else fall
back to the candidate count.  `traceFor` is the `trace_block` network
oracle (`none` models a failed fetch, which the loop skips). -/
def verifyHoldersWithTrace (traceAvailable : Bool)
    (traceFor : Nat → Option (List TraceAction)) (tokenAddress : Nat)
    (potentialHolders : List Nat) (fromBlock toBlock : Nat) : Nat :=
  if ! traceAvailable || potentialHolders.isEmpty then potentialHolders.length
  else
    let sampleSize := min 3 (toBlock - fromBlock)
    let blockStep := max 1 ((toBlock - fromBlock) / sampleSize)
    let blocks := sampleBlockNums fromBlock toBlock blockStep sampleSize
    let verified := ((blocks.map (fun b =>
      match traceFor b with
      | some traces => traces.filterMap (traceMatches tokenAddress potentialHolders)
      | none => [])).flatten).dedup
    if verified.length > 0 ∧ 2 * verified.length ≥ potentialHolders.length then
      verified.length
    else potentialHolders.length

/-- The holder set of the refresh scan: for every fetched log with at
least 3 topics, the `topics[1]`/`topics[2]` participants, zero address
excluded, distinct. -/
def collectHolders (logs : List Log) : List Nat :=
  (((logs.map (fun lg =>
    match lg.topics with
    | _ :: t1 :: t2 :: _ => [addrOfTopic t1, addrOfTopic t2]
    | _ => [])).flatten).filter (fun a => a ≠ zeroAddress)).dedup

/-- The new holder count computed by `updateHolderCounts` for one
selected token: scan window `[checkFromBlock, currentBlock]` (the last
`MAX_BLOCKS_TO_CHECK` blocks for old tokens), count distinct transfer
participants, optionally shrink the count through trace verification,
and take `max` with the stored count only on the bounded-window path with
a nonzero stored count.  (The Etherscan pre-count of the source is dead
code: the final assignments overwrite it.)  `logs` is what `smartGetLogs`
returned for the window. -/
def refreshHolderCount (traceAvailable : Bool)
    (traceFor : Nat → Option (List TraceAction)) (d : Deployment)
    (currentBlock : Nat) (logs : List Log) : Nat :=
  let fromBlock := d.blockNumber
  let toBlock := currentBlock
  let blockRange := toBlock - fromBlock
  let checkFromBlock :=
    if blockRange > MAX_BLOCKS_TO_CHECK then max fromBlock (toBlock - MAX_BLOCKS_TO_CHECK)
    else fromBlock
  let holders := collectHolders logs
  let verifiedHolderCount :=
    if traceAvailable ∧ holders.length > 0 ∧ holders.length < 1000 then
      let sampleBlocks := min 5 ((toBlock - checkFromBlock) / 10)
      if sampleBlocks > 0 then
        let v := verifyHoldersWithTrace traceAvailable traceFor (d.tokenAddress.getD 0)
          holders (max checkFromBlock (toBlock - sampleBlocks * 10)) toBlock
        if v > 0 then v else holders.length
      else holders.length
    else holders.length
  if checkFromBlock > fromBlock ∧ d.holderCount ≠ 0 then
    max d.holderCount verifiedHolderCount
  else verifiedHolderCount

/-- A young token (created at block 0, holder count 10) whose full-range
refresh scan regresses: see `holder_count_can_regress_on_full_scan`. -/
def regressTok : Deployment :=
  { mkDep 7 with tokenAddress := some 7, blockNumber := 0, holderCount := 10 }

/-- Transfer logs minting to holders 1..10. -/
def regressLogs : List Log :=
  (List.range 10).map (fun i =>
    { address := 7, topics := [transferEventSignature, 0, i + 1], blockNumber := 1 })

/-- A trace oracle verifying only holders 1..5 at block 100. -/
def regressTraces : Nat → Option (List TraceAction) := fun b =>
  if b = 100 then
    some ((List.range 5).map (fun i =>
      { toAddr := some 7, fromAddr := some (i + 1), hasValueOrResult := true }))
  else some []

/-- C3 counterexample: on the full-range path (token younger than the
200-block window), trace verification can shrink the computed count below
the stored `holderCount` — here from 10 stored holders down to 5 — and the
smaller value is what the refresh writes (`countChanged` is true). -/
theorem holder_count_can_regress_on_full_scan :
    regressTok.holderCount = 10 ∧
    refreshHolderCount true regressTraces regressTok 100 regressLogs = 5 ∧ (5 : Nat) < 10 := by
  refine ⟨rfl, ?_, by omega⟩
  decide

/-- C3 (amended): the stored holder count is monotonically non-decreasing
only on the bounded-recent-window path — a token older than the 200-block
window with a nonzero stored count gets `max(stored, computed)`; on the
full-range path the computed count replaces the stored value outright and
can be smaller (e.g. when trace verification reduces the holder set). -/
theorem holder_count_monotone_on_windowed_path (traceAvailable : Bool)
    (traceFor : Nat → Option (List TraceAction)) (d : Deployment)
    (currentBlock : Nat) (logs : List Log)
    (hold : d.blockNumber + MAX_BLOCKS_TO_CHECK < currentBlock)
    (hprev : d.holderCount ≠ 0) :
    d.holderCount ≤ refreshHolderCount traceAvailable traceFor d currentBlock logs := by
  have hrange : currentBlock - d.blockNumber > MAX_BLOCKS_TO_CHECK := by omega
  have hcheck : (if currentBlock - d.blockNumber > MAX_BLOCKS_TO_CHECK then
      max d.blockNumber (currentBlock - MAX_BLOCKS_TO_CHECK) else d.blockNumber) >
      d.blockNumber := by
    rw [if_pos hrange]
    have : d.blockNumber < currentBlock - MAX_BLOCKS_TO_CHECK := by omega
    omega
  simp only [refreshHolderCount]
  rw [if_pos ⟨hcheck, hprev⟩]
  exact le_max_left _ _

/-- A 1000-block-old token with 3 stored holders. -/
def windowedTok : Deployment := { mkDep 9 with holderCount := 3 }

/-- Witness for the amended C3: the old token keeps at least its 3 stored
holders after a windowed refresh over an empty log set. -/
theorem holder_count_monotone_on_windowed_path_witness :
    windowedTok.blockNumber + MAX_BLOCKS_TO_CHECK < 1000 ∧ windowedTok.holderCount ≠ 0 ∧
    windowedTok.holderCount ≤ refreshHolderCount false regressTraces windowedTok 1000 [] :=
  ⟨by decide, by decide,
   holder_count_monotone_on_windowed_path false regressTraces windowedTok 1000 []
     (by decide) (by decide)⟩

/-- `MAX_BLOCK_RANGE` of `checkForNewDeployments` (2000 blocks of backup
transaction scanning per cycle). -/
def MAX_BLOCK_RANGE : Nat := 2000

/-- The monitor's per-cycle state: the scan checkpoint, the running flag
and the deployment store. -/
structure ScanState where
  lastCheckedBlock : Option Nat
  isMonitoring : Bool
  store : List Deployment
  deriving DecidableEq

/-- One step of a monitoring cycle: a unit of scan/extract/update work,
or the final checkpoint write. -/
inductive CycleAction
  | scanWork (op : MonitorOp)
  | saveCheckpoint (b : Nat)
  deriving DecidableEq

/-- Interpreting one cycle step: work steps touch only the store, the
checkpoint write touches only `lastCheckedBlock`. -/
def applyCycleAction (s : ScanState) : CycleAction → ScanState
  | .scanWork op => { s with store := applyMonitorOp s.store op }
  | .saveCheckpoint b => { s with lastCheckedBlock := some b }

/-- The scan window start of `checkForNewDeployments`:
`lastCheckedBlock + 1`, or `currentBlock - 50` on the first run. -/
def cycleFromBlock (s : ScanState) (currentBlock : Nat) : Nat :=
  match s.lastCheckedBlock with
  | some b => b + 1
  | none => currentBlock - 50

/-- The step sequence of one `checkForNewDeployments` cycle: nothing when
no new blocks; otherwise the event-scan extractions, the backup
transaction extractions, the dev checks and holder updates (all oracle-
supplied `MonitorOp`s, in source order), and — last — the checkpoint
write at `actualToBlock = min(fromBlock + MAX_BLOCK_RANGE - 1, toBlock)`. -/
def cycleActions (currentBlock : Nat) (s : ScanState)
    (eventWork txWork holderWork : List MonitorOp) : List CycleAction :=
  let fromBlock := cycleFromBlock s currentBlock
  let toBlock := currentBlock
  if fromBlock > toBlock then []
  else
    let actualToBlock := min (fromBlock + MAX_BLOCK_RANGE - 1) toBlock
    eventWork.map .scanWork ++ txWork.map .scanWork ++ holderWork.map .scanWork ++
      [.saveCheckpoint actualToBlock]

/-- One turn of `monitorLoop`: bail out if monitoring is off; otherwise
run the cycle — all of it, or (when the 2-minute outer deadline fires
after `k` steps) only its first `k` steps — and in either case reach the
trailing `setTimeout` that schedules the next cycle (the returned flag). -/
def monitorIteration (s : ScanState) (currentBlock : Nat)
    (eventWork txWork holderWork : List MonitorOp) (interrupt : Option Nat) :
    ScanState × Bool :=
  if s.isMonitoring = false then (s, false)
  else
    let acts := cycleActions currentBlock s eventWork txWork holderWork
    match interrupt with
    | none => (acts.foldl applyCycleAction s, true)
    | some k => ((acts.take k).foldl applyCycleAction s, true)

theorem foldl_scanWork_lastCheckedBlock (acts : List CycleAction)
    (hall : ∀ a ∈ acts, ∃ op, a = CycleAction.scanWork op) :
    ∀ s : ScanState, (acts.foldl applyCycleAction s).lastCheckedBlock = s.lastCheckedBlock := by
  induction acts with
  | nil => intro s; rfl
  | cons a rest ih =>
    intro s
    obtain ⟨op, rfl⟩ := hall a (List.mem_cons_self a rest)
    rw [List.foldl_cons]
    rw [ih (fun b hb => hall b (List.mem_cons_of_mem _ hb))]
    rfl

theorem foldl_isMonitoring (acts : List CycleAction) :
    ∀ s : ScanState, (acts.foldl applyCycleAction s).isMonitoring = s.isMonitoring := by
  induction acts with
  | nil => intro s; rfl
  | cons a rest ih =>
    intro s
    rw [List.foldl_cons, ih]
    cases a <;> rfl

theorem cycleActions_structure (currentBlock : Nat) (s : ScanState)
    (ew tw hw : List MonitorOp) :
    cycleActions currentBlock s ew tw hw = [] ∨
    ∃ front b, cycleActions currentBlock s ew tw hw =
        front ++ [CycleAction.saveCheckpoint b] ∧
      ∀ a ∈ front, ∃ op, a = CycleAction.scanWork op := by
  rw [cycleActions]
  split
  · exact Or.inl rfl
  · refine Or.inr ⟨ew.map .scanWork ++ tw.map .scanWork ++ hw.map .scanWork,
      min (cycleFromBlock s currentBlock + MAX_BLOCK_RANGE - 1) currentBlock, ?_, ?_⟩
    · simp [List.append_assoc]
    intro a ha
    simp only [List.mem_append, List.mem_map] at ha
    rcases ha with (⟨op, -, rfl⟩ | ⟨op, -, rfl⟩) | ⟨op, -, rfl⟩ <;> exact ⟨op, rfl⟩

/-- C7: when the outer 2-minute deadline cuts a cycle after `k` steps
(any point strictly before the trailing checkpoint write), the loop still
schedules the next cycle and keeps monitoring, the checkpoint is exactly
what it was before the cycle, and the next cycle's scan window therefore
restarts at the same `fromBlock` — the unconfirmed range is re-attempted. -/
theorem cycle_timeout_aborts_only_cycle (s : ScanState) (currentBlock : Nat)
    (ew tw hw : List MonitorOp) (k : Nat)
    (hmon : s.isMonitoring = true)
    (hk : k < (cycleActions currentBlock s ew tw hw).length) :
    (monitorIteration s currentBlock ew tw hw (some k)).2 = true ∧
    (monitorIteration s currentBlock ew tw hw (some k)).1.lastCheckedBlock =
      s.lastCheckedBlock ∧
    (monitorIteration s currentBlock ew tw hw (some k)).1.isMonitoring = true ∧
    ∀ c : Nat, cycleFromBlock (monitorIteration s currentBlock ew tw hw (some k)).1 c =
      cycleFromBlock s c := by
  have hiter : monitorIteration s currentBlock ew tw hw (some k) =
      (((cycleActions currentBlock s ew tw hw).take k).foldl applyCycleAction s, true) := by
    rw [monitorIteration, if_neg (by rw [hmon]; simp)]
  have hlast : (((cycleActions currentBlock s ew tw hw).take k).foldl
      applyCycleAction s).lastCheckedBlock = s.lastCheckedBlock := by
    rcases cycleActions_structure currentBlock s ew tw hw with hempty | ⟨front, b, heq, hfront⟩
    · rw [hempty]
      simp
    · rw [heq] at hk ⊢
      have hklen : k ≤ front.length := by
        rw [List.length_append] at hk
        simp at hk
        omega
      rw [List.take_append_of_le_length hklen]
      refine foldl_scanWork_lastCheckedBlock _ ?_ s
      intro a ha
      exact hfront a (List.mem_of_mem_take ha)
  refine ⟨by rw [hiter], by rw [hiter]; exact hlast, ?_, ?_⟩
  · rw [hiter]
    show (_ : ScanState).isMonitoring = true
    rw [foldl_isMonitoring]
    exact hmon
  · intro c
    rw [hiter]
    show cycleFromBlock _ c = cycleFromBlock s c
    rw [cycleFromBlock, cycleFromBlock, hlast]

/-- Witness for C7: a cycle from checkpoint 10 at block 20, cut at step 0. -/
theorem cycle_timeout_aborts_only_cycle_witness :
    ({ lastCheckedBlock := some 10, isMonitoring := true, store := [] } : ScanState).isMonitoring
        = true ∧
    0 < (cycleActions 20 { lastCheckedBlock := some 10, isMonitoring := true, store := [] }
        [] [] []).length ∧
    (monitorIteration { lastCheckedBlock := some 10, isMonitoring := true, store := [] } 20
        [] [] [] (some 0)).1.lastCheckedBlock = some 10 :=
  ⟨rfl, by decide,
   (cycle_timeout_aborts_only_cycle
      { lastCheckedBlock := some 10, isMonitoring := true, store := [] } 20 [] [] [] 0
      rfl (by decide)).2.1⟩

end FeyScan
